import Mathlib

/-!
Verification development for a Rubik's cube state model and its
iterative-deepening solver.  The definitions below are a shallow embedding of
the program's data model (`src/cube/mod.rs`) and solver (`src/solver/mod.rs`):
enumerations become inductive types, the cubicle-to-cubie hash maps become
total functions on the 8-corner / 12-edge identifier types, the orientation
tuple structs become records of natural numbers taken modulo 3 (corners) and
modulo 2 (edges), and the recursive depth-bounded search becomes a
structurally recursive function so that it evaluates inside the kernel.
-/

set_option maxRecDepth 4000

/-- Corner of a Rubik's cube (there are 8). -/
inductive Corner where
  | UFL | URF | UBR | ULB | DBL | DLF | DFR | DRB
deriving DecidableEq, Fintype

/-- Edge of a Rubik's cube (there are 12). -/
inductive Edge where
  | UB | UR | UF | UL | LB | RB | RF | LF | DB | DR | DF | DL
deriving DecidableEq, Fintype

/-- The 12 face-turn move operators: 6 faces, clockwise and counter-clockwise. -/
inductive Move where
  | F | R | U | B | L | D
  | FPrime | RPrime | UPrime | BPrime | LPrime | DPrime
deriving DecidableEq, Fintype

/-- A face of a cubie (a single color sticker). -/
inductive Face where
  | F | R | U | B | L | D
deriving DecidableEq, Fintype

/-- Decompose a corner into faces (mirrors decompose_corner). -/
def decompose_corner (corner : Corner) : Face × Face × Face :=
  match corner with
  | Corner.UFL => (Face.U, Face.F, Face.L)
  | Corner.URF => (Face.U, Face.R, Face.F)
  | Corner.UBR => (Face.U, Face.B, Face.R)
  | Corner.ULB => (Face.U, Face.L, Face.B)
  | Corner.DBL => (Face.D, Face.B, Face.L)
  | Corner.DLF => (Face.D, Face.L, Face.F)
  | Corner.DFR => (Face.D, Face.F, Face.R)
  | Corner.DRB => (Face.D, Face.R, Face.B)

/-- Orient the faces of a corner (mirrors orient_corner). -/
def orient_corner (corner : Corner) (orientation : Nat) : Face × Face × Face :=
  let faces := decompose_corner corner
  if orientation = 0 then faces
  else if orientation = 1 then (faces.2.1, faces.2.2, faces.1)
  else (faces.2.2, faces.1, faces.2.1)

/-- Corner cubie face shown at a cubicle for a given orientation (mirrors get_corner_face). -/
def get_corner_face (cubicle cubie : Corner) (face : Face) (orientation : Nat) : Face :=
  let oriented_cubie := orient_corner cubie orientation
  let faces := decompose_corner cubicle
  if faces.1 = face then oriented_cubie.1
  else if faces.2.1 = face then oriented_cubie.2.1
  else oriented_cubie.2.2

/-- Decompose an edge into faces (mirrors decompose_edge). -/
def decompose_edge (edge : Edge) : Face × Face :=
  match edge with
  | Edge.UB => (Face.U, Face.B)
  | Edge.UR => (Face.U, Face.R)
  | Edge.UF => (Face.U, Face.F)
  | Edge.UL => (Face.U, Face.L)
  | Edge.LB => (Face.B, Face.L)
  | Edge.RB => (Face.B, Face.R)
  | Edge.RF => (Face.F, Face.R)
  | Edge.LF => (Face.F, Face.L)
  | Edge.DB => (Face.D, Face.B)
  | Edge.DR => (Face.D, Face.R)
  | Edge.DF => (Face.D, Face.F)
  | Edge.DL => (Face.D, Face.L)

/-- Orient the faces of an edge (mirrors orient_edge). -/
def orient_edge (edge : Edge) (orientation : Nat) : Face × Face :=
  let faces := decompose_edge edge
  if orientation = 0 then faces else (faces.2, faces.1)

/-- Edge cubie face shown at a cubicle for a given orientation (mirrors get_edge_face). -/
def get_edge_face (cubicle cubie : Edge) (face : Face) (orientation : Nat) : Face :=
  let oriented_edge := orient_edge cubie orientation
  let faces := decompose_edge cubicle
  if faces.1 = face then oriented_edge.1 else oriented_edge.2

/-- Corner permutation: total map from cubicle to resident cubie.  The source
stores a HashMap with all 8 keys always present, so a total function is the
faithful model. -/
abbrev CornerPermutation := Corner → Corner

/-- Edge permutation: total map from cubicle to resident cubie. -/
abbrev EdgePermutation := Edge → Edge

/-- Default corner mapping: each cubie in its corresponding cubicle, one entry
per corner as in CornerPermutation::default. -/
def CornerPermutation.default : CornerPermutation := fun c =>
  match c with
  | Corner.UFL => Corner.UFL
  | Corner.URF => Corner.URF
  | Corner.UBR => Corner.UBR
  | Corner.ULB => Corner.ULB
  | Corner.DBL => Corner.DBL
  | Corner.DLF => Corner.DLF
  | Corner.DFR => Corner.DFR
  | Corner.DRB => Corner.DRB

/-- Default edge mapping: each cubie in its corresponding cubicle. -/
def EdgePermutation.default : EdgePermutation := fun e =>
  match e with
  | Edge.UB => Edge.UB
  | Edge.UR => Edge.UR
  | Edge.UF => Edge.UF
  | Edge.UL => Edge.UL
  | Edge.LB => Edge.LB
  | Edge.RB => Edge.RB
  | Edge.RF => Edge.RF
  | Edge.LF => Edge.LF
  | Edge.DB => Edge.DB
  | Edge.DR => Edge.DR
  | Edge.DF => Edge.DF
  | Edge.DL => Edge.DL

/-- The 4-cycle of corner cubicles affected by each move, exactly the tuple
matched inside CornerPermutation::permute. -/
def cornerCycle (m : Move) : Corner × Corner × Corner × Corner :=
  match m with
  | Move.F => (Corner.URF, Corner.DFR, Corner.DLF, Corner.UFL)
  | Move.R => (Corner.UBR, Corner.DRB, Corner.DFR, Corner.URF)
  | Move.U => (Corner.URF, Corner.UFL, Corner.ULB, Corner.UBR)
  | Move.B => (Corner.ULB, Corner.DBL, Corner.DRB, Corner.UBR)
  | Move.L => (Corner.UFL, Corner.DLF, Corner.DBL, Corner.ULB)
  | Move.D => (Corner.DRB, Corner.DBL, Corner.DLF, Corner.DFR)
  | Move.FPrime => (Corner.URF, Corner.UFL, Corner.DLF, Corner.DFR)
  | Move.RPrime => (Corner.UBR, Corner.URF, Corner.DFR, Corner.DRB)
  | Move.UPrime => (Corner.URF, Corner.UBR, Corner.ULB, Corner.UFL)
  | Move.BPrime => (Corner.ULB, Corner.UBR, Corner.DRB, Corner.DBL)
  | Move.LPrime => (Corner.UFL, Corner.ULB, Corner.DBL, Corner.DLF)
  | Move.DPrime => (Corner.DRB, Corner.DFR, Corner.DLF, Corner.DBL)

/-- Apply a move to the corner permutation.  The source snapshots the old map
(clones it, then inserts cycle.1 <- old cycle.0, cycle.2 <- old cycle.1,
cycle.3 <- old cycle.2, cycle.0 <- old cycle.3, all reads from the pre-move
map); every branch below reads from the unmodified p. -/
def CornerPermutation.permute (p : CornerPermutation) (m : Move) : CornerPermutation :=
  match cornerCycle m with
  | (c0, c1, c2, c3) => fun c =>
    if c = c1 then p c0
    else if c = c2 then p c1
    else if c = c3 then p c2
    else if c = c0 then p c3
    else p c

/-- The 4-cycle of edge cubicles affected by each move, exactly the tuple
matched inside EdgePermutation::permute. -/
def edgeCycle (m : Move) : Edge × Edge × Edge × Edge :=
  match m with
  | Move.F => (Edge.UF, Edge.RF, Edge.DF, Edge.LF)
  | Move.R => (Edge.UR, Edge.RB, Edge.DR, Edge.RF)
  | Move.U => (Edge.UB, Edge.UR, Edge.UF, Edge.UL)
  | Move.B => (Edge.UB, Edge.LB, Edge.DB, Edge.RB)
  | Move.L => (Edge.UL, Edge.LF, Edge.DL, Edge.LB)
  | Move.D => (Edge.DF, Edge.DR, Edge.DB, Edge.DL)
  | Move.FPrime => (Edge.UF, Edge.LF, Edge.DF, Edge.RF)
  | Move.RPrime => (Edge.UR, Edge.RF, Edge.DR, Edge.RB)
  | Move.UPrime => (Edge.UB, Edge.UL, Edge.UF, Edge.UR)
  | Move.BPrime => (Edge.UB, Edge.RB, Edge.DB, Edge.LB)
  | Move.LPrime => (Edge.UL, Edge.LB, Edge.DL, Edge.LF)
  | Move.DPrime => (Edge.DF, Edge.DL, Edge.DB, Edge.DR)

/-- Apply a move to the edge permutation, snapshot semantics as for corners. -/
def EdgePermutation.permute (p : EdgePermutation) (m : Move) : EdgePermutation :=
  match edgeCycle m with
  | (e0, e1, e2, e3) => fun e =>
    if e = e1 then p e0
    else if e = e2 then p e1
    else if e = e3 then p e2
    else if e = e0 then p e3
    else p e

/-- Corner orientation state: the 8-element tuple struct X of values mod 3. -/
structure X where
  x0 : Nat
  x1 : Nat
  x2 : Nat
  x3 : Nat
  x4 : Nat
  x5 : Nat
  x6 : Nat
  x7 : Nat
deriving DecidableEq

/-- All-zero corner orientation vector (the derived Default of X). -/
def X.default : X := ⟨0, 0, 0, 0, 0, 0, 0, 0⟩

/-- Component lookup of an X tuple by index.  Indices 8 and above correspond
to the source's panic branch and are never produced by the move tables. -/
def getX (v : X) (i : Nat) : Nat :=
  match i with
  | 0 => v.x0
  | 1 => v.x1
  | 2 => v.x2
  | 3 => v.x3
  | 4 => v.x4
  | 5 => v.x5
  | 6 => v.x6
  | 7 => v.x7
  | _ => 0

/-- Swap values in an X vector: new component i is old component indices i
(mirrors swap_x). -/
def swap_x (values : X) (indices : Fin 8 → Nat) : X :=
  ⟨getX values (indices 0), getX values (indices 1), getX values (indices 2),
   getX values (indices 3), getX values (indices 4), getX values (indices 5),
   getX values (indices 6), getX values (indices 7)⟩

/-- Add values to an X vector modulo 3 (mirrors add_x). -/
def add_x (values : X) (addends : Fin 8 → Nat) : X :=
  ⟨(values.x0 + addends 0) % 3, (values.x1 + addends 1) % 3,
   (values.x2 + addends 2) % 3, (values.x3 + addends 3) % 3,
   (values.x4 + addends 4) % 3, (values.x5 + addends 5) % 3,
   (values.x6 + addends 6) % 3, (values.x7 + addends 7) % 3⟩

/-- Edge orientation state: the 12-element tuple struct Y of values mod 2. -/
structure Y where
  y0 : Nat
  y1 : Nat
  y2 : Nat
  y3 : Nat
  y4 : Nat
  y5 : Nat
  y6 : Nat
  y7 : Nat
  y8 : Nat
  y9 : Nat
  y10 : Nat
  y11 : Nat
deriving DecidableEq

/-- All-zero edge orientation vector (the derived Default of Y). -/
def Y.default : Y := ⟨0, 0, 0, 0, 0, 0, 0, 0, 0, 0, 0, 0⟩

/-- Component lookup of a Y tuple by index; indices 12 and above are the
unreachable panic branch. -/
def getY (v : Y) (i : Nat) : Nat :=
  match i with
  | 0 => v.y0
  | 1 => v.y1
  | 2 => v.y2
  | 3 => v.y3
  | 4 => v.y4
  | 5 => v.y5
  | 6 => v.y6
  | 7 => v.y7
  | 8 => v.y8
  | 9 => v.y9
  | 10 => v.y10
  | 11 => v.y11
  | _ => 0

/-- Swap values in a Y vector (mirrors swap_y). -/
def swap_y (values : Y) (indices : Fin 12 → Nat) : Y :=
  ⟨getY values (indices 0), getY values (indices 1), getY values (indices 2),
   getY values (indices 3), getY values (indices 4), getY values (indices 5),
   getY values (indices 6), getY values (indices 7), getY values (indices 8),
   getY values (indices 9), getY values (indices 10), getY values (indices 11)⟩

/-- Add values to a Y vector modulo 2 (mirrors add_y). -/
def add_y (values : Y) (addends : Fin 12 → Nat) : Y :=
  ⟨(values.y0 + addends 0) % 2, (values.y1 + addends 1) % 2,
   (values.y2 + addends 2) % 2, (values.y3 + addends 3) % 2,
   (values.y4 + addends 4) % 2, (values.y5 + addends 5) % 2,
   (values.y6 + addends 6) % 2, (values.y7 + addends 7) % 2,
   (values.y8 + addends 8) % 2, (values.y9 + addends 9) % 2,
   (values.y10 + addends 10) % 2, (values.y11 + addends 11) % 2⟩

/-- State of a Rubik's cube: corner permutation sigma, edge permutation tau,
corner orientations x, edge orientations y. -/
structure Cube where
  sigma : CornerPermutation
  tau : EdgePermutation
  x : X
  y : Y

/-- A new cube in the solved state (mirrors Cube::new). -/
def Cube.new : Cube :=
  { sigma := CornerPermutation.default
    tau := EdgePermutation.default
    x := X.default
    y := Y.default }

/-- Per-move corner-orientation (swap indices, addends) pairs, exactly the
first match table inside Cube::apply_move. -/
def xTables (m : Move) : (Fin 8 → Nat) × (Fin 8 → Nat) :=
  match m with
  | Move.F => (![5, 0, 2, 3, 4, 6, 1, 7], ![1, 2, 0, 0, 0, 2, 1, 0])
  | Move.R => (![0, 6, 1, 3, 4, 5, 7, 2], ![0, 1, 2, 0, 0, 0, 2, 1])
  | Move.U => (![1, 2, 3, 0, 4, 5, 6, 7], ![0, 0, 0, 0, 0, 0, 0, 0])
  | Move.B => (![0, 1, 7, 2, 3, 5, 6, 4], ![0, 0, 1, 2, 1, 0, 0, 2])
  | Move.L => (![3, 1, 2, 4, 5, 0, 6, 7], ![2, 0, 0, 1, 2, 1, 0, 0])
  | Move.D => (![0, 1, 2, 3, 7, 4, 5, 6], ![0, 0, 0, 0, 0, 0, 0, 0])
  | Move.FPrime => (![1, 6, 2, 3, 4, 0, 5, 7], ![1, 2, 0, 0, 0, 2, 1, 0])
  | Move.RPrime => (![0, 2, 7, 3, 4, 5, 1, 6], ![0, 1, 2, 0, 0, 0, 2, 1])
  | Move.UPrime => (![3, 0, 1, 2, 4, 5, 6, 7], ![0, 0, 0, 0, 0, 0, 0, 0])
  | Move.BPrime => (![0, 1, 3, 4, 7, 5, 6, 2], ![0, 0, 1, 2, 1, 0, 0, 2])
  | Move.LPrime => (![5, 1, 2, 0, 3, 4, 6, 7], ![2, 0, 0, 1, 2, 1, 0, 0])
  | Move.DPrime => (![0, 1, 2, 3, 5, 6, 7, 4], ![0, 0, 0, 0, 0, 0, 0, 0])

/-- Per-move edge-orientation (swap indices, addends) pairs, exactly the
second match table inside Cube::apply_move. -/
def yTables (m : Move) : (Fin 12 → Nat) × (Fin 12 → Nat) :=
  match m with
  | Move.F => (![0, 1, 7, 3, 4, 5, 2, 10, 8, 9, 6, 11], ![0, 0, 1, 0, 0, 0, 1, 1, 0, 0, 1, 0])
  | Move.R => (![0, 6, 2, 3, 4, 1, 9, 7, 8, 5, 10, 11], ![0, 0, 0, 0, 0, 0, 0, 0, 0, 0, 0, 0])
  | Move.U => (![3, 0, 1, 2, 4, 5, 6, 7, 8, 9, 10, 11], ![0, 0, 0, 0, 0, 0, 0, 0, 0, 0, 0, 0])
  | Move.B => (![5, 1, 2, 3, 0, 8, 6, 7, 4, 9, 10, 11], ![1, 0, 0, 0, 1, 1, 0, 0, 1, 0, 0, 0])
  | Move.L => (![0, 1, 2, 4, 11, 5, 6, 3, 8, 9, 10, 7], ![0, 0, 0, 0, 0, 0, 0, 0, 0, 0, 0, 0])
  | Move.D => (![0, 1, 2, 3, 4, 5, 6, 7, 9, 10, 11, 8], ![0, 0, 0, 0, 0, 0, 0, 0, 0, 0, 0, 0])
  | Move.FPrime => (![0, 1, 6, 3, 4, 5, 10, 2, 8, 9, 7, 11], ![0, 0, 1, 0, 0, 0, 1, 1, 0, 0, 1, 0])
  | Move.RPrime => (![0, 5, 2, 3, 4, 9, 1, 7, 8, 6, 10, 11], ![0, 0, 0, 0, 0, 0, 0, 0, 0, 0, 0, 0])
  | Move.UPrime => (![1, 2, 3, 0, 4, 5, 6, 7, 8, 9, 10, 11], ![0, 0, 0, 0, 0, 0, 0, 0, 0, 0, 0, 0])
  | Move.BPrime => (![4, 1, 2, 3, 8, 0, 6, 7, 5, 9, 10, 11], ![1, 0, 0, 0, 1, 1, 0, 0, 1, 0, 0, 0])
  | Move.LPrime => (![0, 1, 2, 7, 3, 5, 6, 11, 8, 9, 10, 4], ![0, 0, 0, 0, 0, 0, 0, 0, 0, 0, 0, 0])
  | Move.DPrime => (![0, 1, 2, 3, 4, 5, 6, 7, 11, 8, 9, 10], ![0, 0, 0, 0, 0, 0, 0, 0, 0, 0, 0, 0])

/-- Apply a single move to the cube (mirrors Cube::apply_move): permute both
cubicle maps along the move's 4-cycles, then reindex-and-increment both
orientation vectors by the move's table pair. -/
def Cube.apply_move (cube : Cube) (m : Move) : Cube :=
  { sigma := CornerPermutation.permute cube.sigma m
    tau := EdgePermutation.permute cube.tau m
    x := add_x (swap_x cube.x (xTables m).1) (xTables m).2
    y := add_y (swap_y cube.y (yTables m).1) (yTables m).2 }

/-- The 8 corner identifiers in declaration order. -/
def cornerList : List Corner :=
  [Corner.UFL, Corner.URF, Corner.UBR, Corner.ULB,
   Corner.DBL, Corner.DLF, Corner.DFR, Corner.DRB]

/-- The 12 edge identifiers in declaration order. -/
def edgeList : List Edge :=
  [Edge.UB, Edge.UR, Edge.UF, Edge.UL, Edge.LB, Edge.RB,
   Edge.RF, Edge.LF, Edge.DB, Edge.DR, Edge.DF, Edge.DL]

/-- Equality test of two corner permutations: the HashMap equality of the
source compares the value at every one of the 8 always-present keys. -/
def cornerPermEq (p q : CornerPermutation) : Bool :=
  cornerList.all fun c => p c == q c

/-- Equality test of two edge permutations over all 12 keys. -/
def edgePermEq (p q : EdgePermutation) : Bool :=
  edgeList.all fun e => p e == q e

/-- Whether the cube is in the solved state (mirrors Cube::is_solved):
both permutations equal the default mapping and both orientation vectors are
the default all-zero vectors. -/
def Cube.is_solved (cube : Cube) : Bool :=
  cornerPermEq cube.sigma CornerPermutation.default &&
  edgePermEq cube.tau EdgePermutation.default &&
  (cube.x == X.default) && (cube.y == Y.default)

/-- Orientation of a corner cubicle (mirrors Cube::get_corner_orientation). -/
def Cube.get_corner_orientation (cube : Cube) (c : Corner) : Nat :=
  match c with
  | Corner.UFL => cube.x.x0
  | Corner.URF => cube.x.x1
  | Corner.UBR => cube.x.x2
  | Corner.ULB => cube.x.x3
  | Corner.DBL => cube.x.x4
  | Corner.DLF => cube.x.x5
  | Corner.DFR => cube.x.x6
  | Corner.DRB => cube.x.x7

/-- Orientation of an edge cubicle (mirrors Cube::get_edge_orientation). -/
def Cube.get_edge_orientation (cube : Cube) (e : Edge) : Nat :=
  match e with
  | Edge.UB => cube.y.y0
  | Edge.UR => cube.y.y1
  | Edge.UF => cube.y.y2
  | Edge.UL => cube.y.y3
  | Edge.LB => cube.y.y4
  | Edge.RB => cube.y.y5
  | Edge.RF => cube.y.y6
  | Edge.LF => cube.y.y7
  | Edge.DB => cube.y.y8
  | Edge.DR => cube.y.y9
  | Edge.DF => cube.y.y10
  | Edge.DL => cube.y.y11

/-- Corner cubicles of a face, clockwise from top left (table in get_face). -/
def faceCorners (face : Face) : Corner × Corner × Corner × Corner :=
  match face with
  | Face.F => (Corner.UFL, Corner.URF, Corner.DFR, Corner.DLF)
  | Face.R => (Corner.URF, Corner.UBR, Corner.DRB, Corner.DFR)
  | Face.U => (Corner.ULB, Corner.UBR, Corner.URF, Corner.UFL)
  | Face.B => (Corner.UBR, Corner.ULB, Corner.DBL, Corner.DRB)
  | Face.L => (Corner.ULB, Corner.UFL, Corner.DLF, Corner.DBL)
  | Face.D => (Corner.DLF, Corner.DFR, Corner.DRB, Corner.DBL)

/-- Edge cubicles of a face, clockwise from the top (table in get_face). -/
def faceEdges (face : Face) : Edge × Edge × Edge × Edge :=
  match face with
  | Face.F => (Edge.UF, Edge.RF, Edge.DF, Edge.LF)
  | Face.R => (Edge.UR, Edge.RB, Edge.DR, Edge.RF)
  | Face.U => (Edge.UB, Edge.UR, Edge.UF, Edge.UL)
  | Face.B => (Edge.UB, Edge.LB, Edge.DB, Edge.RB)
  | Face.L => (Edge.UL, Edge.LF, Edge.DL, Edge.LB)
  | Face.D => (Edge.DF, Edge.DR, Edge.DB, Edge.DL)

/-- The 9 visible stickers of one face, row-major from top left (mirrors
Cube::get_face): corner and edge cubies are looked up in the permutations,
their cubicle orientations read off, and the visible sticker computed from
the intrinsic face decomposition; the center is the face's own color. -/
def Cube.get_face (cube : Cube) (face : Face) : List Face :=
  match faceCorners face, faceEdges face with
  | (k0, k1, k2, k3), (e0, e1, e2, e3) =>
    let cf := fun (k : Corner) =>
      get_corner_face k (cube.sigma k) face (cube.get_corner_orientation k)
    let ef := fun (e : Edge) =>
      get_edge_face e (cube.tau e) face (cube.get_edge_orientation e)
    [cf k0, ef e0, cf k1,
     ef e3, face, ef e1,
     cf k3, ef e2, cf k2]

/-- Apply a list of moves in order, first element first. -/
def applySeq : Cube → List Move → Cube
  | c, [] => c
  | c, m :: ms => applySeq (Cube.apply_move c m) ms

/-- Solve the cube with a given solving method (mirrors Cube::solve): obtain
the move list from the solver, then apply each returned move to the cube in
order; the result is the mutated cube together with the returned moves. -/
def Cube.solve (cube : Cube) (solver : Cube → List Move) : Cube × List Move :=
  let moves := solver cube
  (moves.foldl Cube.apply_move cube, moves)

/-- An iterative-deepening solver, holding only its maximum search depth. -/
structure IDSolver where
  max_depth : Nat

/-- Default solver with maximum depth 26 (mirrors IDSolver::new). -/
def IDSolver.new : IDSolver := ⟨26⟩

/-- Solver with a caller-chosen maximum depth (mirrors IDSolver::with_max_depth). -/
def IDSolver.with_max_depth (d : Nat) : IDSolver := ⟨d⟩

/-- The fixed enumeration order of candidate moves used by dbsearch. -/
def possible_moves : List Move :=
  [Move.F, Move.R, Move.U, Move.B, Move.L, Move.D,
   Move.FPrime, Move.RPrime, Move.UPrime, Move.BPrime, Move.LPrime, Move.DPrime]

/-- The candidate loop of dbsearch: try each move in order on a copy of the
start state; if the copy is solved the accumulated list is just that move,
otherwise a successful recursive search (here the `search` argument, the
depth-decremented dbsearch) contributes its moves after it; a failed branch is
discarded (the pop in the source) and the loop continues.  The source returns
Some exactly when some branch broke out of the loop with a non-empty list. -/
def dbsearchTry (search : Cube → Option (List Move)) (start : Cube) :
    List Move → Option (List Move)
  | [] => none
  | m :: rest =>
    if Cube.is_solved (Cube.apply_move start m) then some [m]
    else
      match search (Cube.apply_move start m) with
      | some ms => some (m :: ms)
      | none => dbsearchTry search start rest

/-- Depth-bounded search for a solution (mirrors dbsearch): at depth 0 report
nothing, otherwise run the candidate loop with the recursive search one level
shallower. -/
def dbsearch : Nat → Cube → Option (List Move)
  | 0, _ => none
  | d + 1, start => dbsearchTry (dbsearch d) start possible_moves

/-- The iterative-deepening loop of find_solution: with `rem` depths left to
try, run dbsearch at the current depth and stop at the first success;
`searchFrom c max 1` performs exactly the source's loop for
current_depth = 1, 2, ..., max. -/
def searchFrom (cube : Cube) : Nat → Nat → Option (List Move)
  | 0, _ => none
  | rem + 1, depth =>
    match dbsearch depth cube with
    | some s => some s
    | none => searchFrom cube rem (depth + 1)

/-- Find a solving sequence (mirrors IDSolver::find_solution): a solved cube
needs no search and yields the empty list; otherwise deepen from 1 up to the
solver's maximum depth and return the first solution found, or the empty list
when every depth fails. -/
def IDSolver.find_solution (solver : IDSolver) (cube : Cube) : List Move :=
  if Cube.is_solved cube then []
  else
    match searchFrom cube solver.max_depth 1 with
    | some s => s
    | none => []

/-- Validation against the repository's doctest: F makes the cube unsolved
and four applications of F restore it. -/
example :
    Cube.is_solved (Cube.apply_move Cube.new Move.F) = false ∧
    Cube.is_solved
      (Cube.apply_move (Cube.apply_move
        (Cube.apply_move (Cube.apply_move Cube.new Move.F) Move.F) Move.F) Move.F) = true := by
  decide

/-- Validation against the repository's test_move_and_unmove. -/
example :
    Cube.is_solved (applySeq Cube.new
      [Move.F, Move.R, Move.U, Move.B, Move.L, Move.D,
       Move.DPrime, Move.LPrime, Move.BPrime, Move.UPrime, Move.RPrime, Move.FPrime]) = true := by
  decide

/-- Validation that the solver model evaluates in the kernel and finds the
one-move inverse solution for a single F scramble. -/
example :
    IDSolver.find_solution IDSolver.new (Cube.apply_move Cube.new Move.F) = [Move.FPrime] := by
  decide

/-- Well-formed cube state as defined by the spec's data model: corner
orientation values lie in 0..2 and edge orientation values in 0..1.  Every
state the program can build (Cube::new followed by apply_move calls) satisfies
this, since the tables only produce values reduced modulo 3 and 2. -/
abbrev Cube.WF (c : Cube) : Prop :=
  c.x.x0 < 3 ∧ c.x.x1 < 3 ∧ c.x.x2 < 3 ∧ c.x.x3 < 3 ∧
  c.x.x4 < 3 ∧ c.x.x5 < 3 ∧ c.x.x6 < 3 ∧ c.x.x7 < 3 ∧
  c.y.y0 < 2 ∧ c.y.y1 < 2 ∧ c.y.y2 < 2 ∧ c.y.y3 < 2 ∧
  c.y.y4 < 2 ∧ c.y.y5 < 2 ∧ c.y.y6 < 2 ∧ c.y.y7 < 2 ∧
  c.y.y8 < 2 ∧ c.y.y9 < 2 ∧ c.y.y10 < 2 ∧ c.y.y11 < 2

/-- Unfolded action of move F, validated definitionally against the tables. -/
lemma apply_move_F (c : Cube) : Cube.apply_move c Move.F =
    { sigma := CornerPermutation.permute c.sigma Move.F
      tau := EdgePermutation.permute c.tau Move.F
      x := ⟨(c.x.x5 + 1) % 3, (c.x.x0 + 2) % 3, (c.x.x2 + 0) % 3, (c.x.x3 + 0) % 3,
            (c.x.x4 + 0) % 3, (c.x.x6 + 2) % 3, (c.x.x1 + 1) % 3, (c.x.x7 + 0) % 3⟩
      y := ⟨(c.y.y0 + 0) % 2, (c.y.y1 + 0) % 2, (c.y.y7 + 1) % 2, (c.y.y3 + 0) % 2,
            (c.y.y4 + 0) % 2, (c.y.y5 + 0) % 2, (c.y.y2 + 1) % 2, (c.y.y10 + 1) % 2,
            (c.y.y8 + 0) % 2, (c.y.y9 + 0) % 2, (c.y.y6 + 1) % 2, (c.y.y11 + 0) % 2⟩ } := rfl

/-- Unfolded action of move R. -/
lemma apply_move_R (c : Cube) : Cube.apply_move c Move.R =
    { sigma := CornerPermutation.permute c.sigma Move.R
      tau := EdgePermutation.permute c.tau Move.R
      x := ⟨(c.x.x0 + 0) % 3, (c.x.x6 + 1) % 3, (c.x.x1 + 2) % 3, (c.x.x3 + 0) % 3,
            (c.x.x4 + 0) % 3, (c.x.x5 + 0) % 3, (c.x.x7 + 2) % 3, (c.x.x2 + 1) % 3⟩
      y := ⟨(c.y.y0 + 0) % 2, (c.y.y6 + 0) % 2, (c.y.y2 + 0) % 2, (c.y.y3 + 0) % 2,
            (c.y.y4 + 0) % 2, (c.y.y1 + 0) % 2, (c.y.y9 + 0) % 2, (c.y.y7 + 0) % 2,
            (c.y.y8 + 0) % 2, (c.y.y5 + 0) % 2, (c.y.y10 + 0) % 2, (c.y.y11 + 0) % 2⟩ } := rfl

/-- Unfolded action of move U. -/
lemma apply_move_U (c : Cube) : Cube.apply_move c Move.U =
    { sigma := CornerPermutation.permute c.sigma Move.U
      tau := EdgePermutation.permute c.tau Move.U
      x := ⟨(c.x.x1 + 0) % 3, (c.x.x2 + 0) % 3, (c.x.x3 + 0) % 3, (c.x.x0 + 0) % 3,
            (c.x.x4 + 0) % 3, (c.x.x5 + 0) % 3, (c.x.x6 + 0) % 3, (c.x.x7 + 0) % 3⟩
      y := ⟨(c.y.y3 + 0) % 2, (c.y.y0 + 0) % 2, (c.y.y1 + 0) % 2, (c.y.y2 + 0) % 2,
            (c.y.y4 + 0) % 2, (c.y.y5 + 0) % 2, (c.y.y6 + 0) % 2, (c.y.y7 + 0) % 2,
            (c.y.y8 + 0) % 2, (c.y.y9 + 0) % 2, (c.y.y10 + 0) % 2, (c.y.y11 + 0) % 2⟩ } := rfl

/-- Unfolded action of move B. -/
lemma apply_move_B (c : Cube) : Cube.apply_move c Move.B =
    { sigma := CornerPermutation.permute c.sigma Move.B
      tau := EdgePermutation.permute c.tau Move.B
      x := ⟨(c.x.x0 + 0) % 3, (c.x.x1 + 0) % 3, (c.x.x7 + 1) % 3, (c.x.x2 + 2) % 3,
            (c.x.x3 + 1) % 3, (c.x.x5 + 0) % 3, (c.x.x6 + 0) % 3, (c.x.x4 + 2) % 3⟩
      y := ⟨(c.y.y5 + 1) % 2, (c.y.y1 + 0) % 2, (c.y.y2 + 0) % 2, (c.y.y3 + 0) % 2,
            (c.y.y0 + 1) % 2, (c.y.y8 + 1) % 2, (c.y.y6 + 0) % 2, (c.y.y7 + 0) % 2,
            (c.y.y4 + 1) % 2, (c.y.y9 + 0) % 2, (c.y.y10 + 0) % 2, (c.y.y11 + 0) % 2⟩ } := rfl

/-- Unfolded action of move L. -/
lemma apply_move_L (c : Cube) : Cube.apply_move c Move.L =
    { sigma := CornerPermutation.permute c.sigma Move.L
      tau := EdgePermutation.permute c.tau Move.L
      x := ⟨(c.x.x3 + 2) % 3, (c.x.x1 + 0) % 3, (c.x.x2 + 0) % 3, (c.x.x4 + 1) % 3,
            (c.x.x5 + 2) % 3, (c.x.x0 + 1) % 3, (c.x.x6 + 0) % 3, (c.x.x7 + 0) % 3⟩
      y := ⟨(c.y.y0 + 0) % 2, (c.y.y1 + 0) % 2, (c.y.y2 + 0) % 2, (c.y.y4 + 0) % 2,
            (c.y.y11 + 0) % 2, (c.y.y5 + 0) % 2, (c.y.y6 + 0) % 2, (c.y.y3 + 0) % 2,
            (c.y.y8 + 0) % 2, (c.y.y9 + 0) % 2, (c.y.y10 + 0) % 2, (c.y.y7 + 0) % 2⟩ } := rfl

/-- Unfolded action of move D. -/
lemma apply_move_D (c : Cube) : Cube.apply_move c Move.D =
    { sigma := CornerPermutation.permute c.sigma Move.D
      tau := EdgePermutation.permute c.tau Move.D
      x := ⟨(c.x.x0 + 0) % 3, (c.x.x1 + 0) % 3, (c.x.x2 + 0) % 3, (c.x.x3 + 0) % 3,
            (c.x.x7 + 0) % 3, (c.x.x4 + 0) % 3, (c.x.x5 + 0) % 3, (c.x.x6 + 0) % 3⟩
      y := ⟨(c.y.y0 + 0) % 2, (c.y.y1 + 0) % 2, (c.y.y2 + 0) % 2, (c.y.y3 + 0) % 2,
            (c.y.y4 + 0) % 2, (c.y.y5 + 0) % 2, (c.y.y6 + 0) % 2, (c.y.y7 + 0) % 2,
            (c.y.y9 + 0) % 2, (c.y.y10 + 0) % 2, (c.y.y11 + 0) % 2, (c.y.y8 + 0) % 2⟩ } := rfl

/-- Unfolded action of move F-prime. -/
lemma apply_move_FPrime (c : Cube) : Cube.apply_move c Move.FPrime =
    { sigma := CornerPermutation.permute c.sigma Move.FPrime
      tau := EdgePermutation.permute c.tau Move.FPrime
      x := ⟨(c.x.x1 + 1) % 3, (c.x.x6 + 2) % 3, (c.x.x2 + 0) % 3, (c.x.x3 + 0) % 3,
            (c.x.x4 + 0) % 3, (c.x.x0 + 2) % 3, (c.x.x5 + 1) % 3, (c.x.x7 + 0) % 3⟩
      y := ⟨(c.y.y0 + 0) % 2, (c.y.y1 + 0) % 2, (c.y.y6 + 1) % 2, (c.y.y3 + 0) % 2,
            (c.y.y4 + 0) % 2, (c.y.y5 + 0) % 2, (c.y.y10 + 1) % 2, (c.y.y2 + 1) % 2,
            (c.y.y8 + 0) % 2, (c.y.y9 + 0) % 2, (c.y.y7 + 1) % 2, (c.y.y11 + 0) % 2⟩ } := rfl

/-- Unfolded action of move R-prime. -/
lemma apply_move_RPrime (c : Cube) : Cube.apply_move c Move.RPrime =
    { sigma := CornerPermutation.permute c.sigma Move.RPrime
      tau := EdgePermutation.permute c.tau Move.RPrime
      x := ⟨(c.x.x0 + 0) % 3, (c.x.x2 + 1) % 3, (c.x.x7 + 2) % 3, (c.x.x3 + 0) % 3,
            (c.x.x4 + 0) % 3, (c.x.x5 + 0) % 3, (c.x.x1 + 2) % 3, (c.x.x6 + 1) % 3⟩
      y := ⟨(c.y.y0 + 0) % 2, (c.y.y5 + 0) % 2, (c.y.y2 + 0) % 2, (c.y.y3 + 0) % 2,
            (c.y.y4 + 0) % 2, (c.y.y9 + 0) % 2, (c.y.y1 + 0) % 2, (c.y.y7 + 0) % 2,
            (c.y.y8 + 0) % 2, (c.y.y6 + 0) % 2, (c.y.y10 + 0) % 2, (c.y.y11 + 0) % 2⟩ } := rfl

/-- Unfolded action of move U-prime. -/
lemma apply_move_UPrime (c : Cube) : Cube.apply_move c Move.UPrime =
    { sigma := CornerPermutation.permute c.sigma Move.UPrime
      tau := EdgePermutation.permute c.tau Move.UPrime
      x := ⟨(c.x.x3 + 0) % 3, (c.x.x0 + 0) % 3, (c.x.x1 + 0) % 3, (c.x.x2 + 0) % 3,
            (c.x.x4 + 0) % 3, (c.x.x5 + 0) % 3, (c.x.x6 + 0) % 3, (c.x.x7 + 0) % 3⟩
      y := ⟨(c.y.y1 + 0) % 2, (c.y.y2 + 0) % 2, (c.y.y3 + 0) % 2, (c.y.y0 + 0) % 2,
            (c.y.y4 + 0) % 2, (c.y.y5 + 0) % 2, (c.y.y6 + 0) % 2, (c.y.y7 + 0) % 2,
            (c.y.y8 + 0) % 2, (c.y.y9 + 0) % 2, (c.y.y10 + 0) % 2, (c.y.y11 + 0) % 2⟩ } := rfl

/-- Unfolded action of move B-prime. -/
lemma apply_move_BPrime (c : Cube) : Cube.apply_move c Move.BPrime =
    { sigma := CornerPermutation.permute c.sigma Move.BPrime
      tau := EdgePermutation.permute c.tau Move.BPrime
      x := ⟨(c.x.x0 + 0) % 3, (c.x.x1 + 0) % 3, (c.x.x3 + 1) % 3, (c.x.x4 + 2) % 3,
            (c.x.x7 + 1) % 3, (c.x.x5 + 0) % 3, (c.x.x6 + 0) % 3, (c.x.x2 + 2) % 3⟩
      y := ⟨(c.y.y4 + 1) % 2, (c.y.y1 + 0) % 2, (c.y.y2 + 0) % 2, (c.y.y3 + 0) % 2,
            (c.y.y8 + 1) % 2, (c.y.y0 + 1) % 2, (c.y.y6 + 0) % 2, (c.y.y7 + 0) % 2,
            (c.y.y5 + 1) % 2, (c.y.y9 + 0) % 2, (c.y.y10 + 0) % 2, (c.y.y11 + 0) % 2⟩ } := rfl

/-- Unfolded action of move L-prime. -/
lemma apply_move_LPrime (c : Cube) : Cube.apply_move c Move.LPrime =
    { sigma := CornerPermutation.permute c.sigma Move.LPrime
      tau := EdgePermutation.permute c.tau Move.LPrime
      x := ⟨(c.x.x5 + 2) % 3, (c.x.x1 + 0) % 3, (c.x.x2 + 0) % 3, (c.x.x0 + 1) % 3,
            (c.x.x3 + 2) % 3, (c.x.x4 + 1) % 3, (c.x.x6 + 0) % 3, (c.x.x7 + 0) % 3⟩
      y := ⟨(c.y.y0 + 0) % 2, (c.y.y1 + 0) % 2, (c.y.y2 + 0) % 2, (c.y.y7 + 0) % 2,
            (c.y.y3 + 0) % 2, (c.y.y5 + 0) % 2, (c.y.y6 + 0) % 2, (c.y.y11 + 0) % 2,
            (c.y.y8 + 0) % 2, (c.y.y9 + 0) % 2, (c.y.y10 + 0) % 2, (c.y.y4 + 0) % 2⟩ } := rfl

/-- Unfolded action of move D-prime. -/
lemma apply_move_DPrime (c : Cube) : Cube.apply_move c Move.DPrime =
    { sigma := CornerPermutation.permute c.sigma Move.DPrime
      tau := EdgePermutation.permute c.tau Move.DPrime
      x := ⟨(c.x.x0 + 0) % 3, (c.x.x1 + 0) % 3, (c.x.x2 + 0) % 3, (c.x.x3 + 0) % 3,
            (c.x.x5 + 0) % 3, (c.x.x6 + 0) % 3, (c.x.x7 + 0) % 3, (c.x.x4 + 0) % 3⟩
      y := ⟨(c.y.y0 + 0) % 2, (c.y.y1 + 0) % 2, (c.y.y2 + 0) % 2, (c.y.y3 + 0) % 2,
            (c.y.y4 + 0) % 2, (c.y.y5 + 0) % 2, (c.y.y6 + 0) % 2, (c.y.y7 + 0) % 2,
            (c.y.y11 + 0) % 2, (c.y.y8 + 0) % 2, (c.y.y9 + 0) % 2, (c.y.y10 + 0) % 2⟩ } := rfl

set_option maxHeartbeats 6000000 in
/-- C2: for every well-formed cube state (orientation coordinates in their
mod-3 / mod-2 ranges, as the spec's data model defines a state) and every one
of the 12 move operators, four consecutive applications of apply_move with
that operator restore the corner permutation, the edge permutation and both
orientation vectors to their values before the four applications. -/
theorem claimC2_apply_move_four_times_id (m : Move) (c : Cube) (h : c.WF) :
    Cube.apply_move (Cube.apply_move (Cube.apply_move (Cube.apply_move c m) m) m) m = c := by
  obtain ⟨σ, τ, ⟨x0, x1, x2, x3, x4, x5, x6, x7⟩,
    ⟨y0, y1, y2, y3, y4, y5, y6, y7, y8, y9, y10, y11⟩⟩ := c
  have hx0 : x0 < 3 := h.1
  have hx1 : x1 < 3 := h.2.1
  have hx2 : x2 < 3 := h.2.2.1
  have hx3 : x3 < 3 := h.2.2.2.1
  have hx4 : x4 < 3 := h.2.2.2.2.1
  have hx5 : x5 < 3 := h.2.2.2.2.2.1
  have hx6 : x6 < 3 := h.2.2.2.2.2.2.1
  have hx7 : x7 < 3 := h.2.2.2.2.2.2.2.1
  have hy0 : y0 < 2 := h.2.2.2.2.2.2.2.2.1
  have hy1 : y1 < 2 := h.2.2.2.2.2.2.2.2.2.1
  have hy2 : y2 < 2 := h.2.2.2.2.2.2.2.2.2.2.1
  have hy3 : y3 < 2 := h.2.2.2.2.2.2.2.2.2.2.2.1
  have hy4 : y4 < 2 := h.2.2.2.2.2.2.2.2.2.2.2.2.1
  have hy5 : y5 < 2 := h.2.2.2.2.2.2.2.2.2.2.2.2.2.1
  have hy6 : y6 < 2 := h.2.2.2.2.2.2.2.2.2.2.2.2.2.2.1
  have hy7 : y7 < 2 := h.2.2.2.2.2.2.2.2.2.2.2.2.2.2.2.1
  have hy8 : y8 < 2 := h.2.2.2.2.2.2.2.2.2.2.2.2.2.2.2.2.1
  have hy9 : y9 < 2 := h.2.2.2.2.2.2.2.2.2.2.2.2.2.2.2.2.2.1
  have hy10 : y10 < 2 := h.2.2.2.2.2.2.2.2.2.2.2.2.2.2.2.2.2.2.1
  have hy11 : y11 < 2 := h.2.2.2.2.2.2.2.2.2.2.2.2.2.2.2.2.2.2.2
  clear h
  cases m <;>
    (simp only [apply_move_F, apply_move_R, apply_move_U, apply_move_B, apply_move_L,
       apply_move_D, apply_move_FPrime, apply_move_RPrime, apply_move_UPrime,
       apply_move_BPrime, apply_move_LPrime, apply_move_DPrime,
       Cube.mk.injEq, X.mk.injEq, Y.mk.injEq]
     refine ⟨funext fun cc => by cases cc <;> rfl, funext fun e => by cases e <;> rfl,
       by omega, by omega⟩)

/-- Witness for C2 at a concrete input: the solved state is well-formed and
four F turns return to it. -/
theorem claimC2_witness :
    Cube.WF Cube.new ∧
    Cube.apply_move (Cube.apply_move (Cube.apply_move
      (Cube.apply_move Cube.new Move.F) Move.F) Move.F) Move.F = Cube.new :=
  ⟨by decide, claimC2_apply_move_four_times_id Move.F Cube.new (by decide)⟩

/-- The declared inverse of each move operator: F and FPrime are mutually
inverse, likewise R/RPrime, U/UPrime, B/BPrime, L/LPrime, D/DPrime (the
pairing declared by the operator names and the spec's notation section). -/
def inverse_move : Move → Move
  | Move.F => Move.FPrime
  | Move.R => Move.RPrime
  | Move.U => Move.UPrime
  | Move.B => Move.BPrime
  | Move.L => Move.LPrime
  | Move.D => Move.DPrime
  | Move.FPrime => Move.F
  | Move.RPrime => Move.R
  | Move.UPrime => Move.U
  | Move.BPrime => Move.B
  | Move.LPrime => Move.L
  | Move.DPrime => Move.D

set_option maxHeartbeats 6000000 in
/-- C3: for every well-formed cube state s and every move operator, applying
the move and then its declared inverse returns the state to s.  Since
inverse_move pairs each clockwise face move with its prime operator and vice
versa, instantiating m at both members of a pair covers both orders; the
solved state is covered as the special case s = Cube.new (see the witness). -/
theorem claimC3_move_then_inverse_id (m : Move) (c : Cube) (h : c.WF) :
    Cube.apply_move (Cube.apply_move c m) (inverse_move m) = c := by
  obtain ⟨σ, τ, ⟨x0, x1, x2, x3, x4, x5, x6, x7⟩,
    ⟨y0, y1, y2, y3, y4, y5, y6, y7, y8, y9, y10, y11⟩⟩ := c
  have hx0 : x0 < 3 := h.1
  have hx1 : x1 < 3 := h.2.1
  have hx2 : x2 < 3 := h.2.2.1
  have hx3 : x3 < 3 := h.2.2.2.1
  have hx4 : x4 < 3 := h.2.2.2.2.1
  have hx5 : x5 < 3 := h.2.2.2.2.2.1
  have hx6 : x6 < 3 := h.2.2.2.2.2.2.1
  have hx7 : x7 < 3 := h.2.2.2.2.2.2.2.1
  have hy0 : y0 < 2 := h.2.2.2.2.2.2.2.2.1
  have hy1 : y1 < 2 := h.2.2.2.2.2.2.2.2.2.1
  have hy2 : y2 < 2 := h.2.2.2.2.2.2.2.2.2.2.1
  have hy3 : y3 < 2 := h.2.2.2.2.2.2.2.2.2.2.2.1
  have hy4 : y4 < 2 := h.2.2.2.2.2.2.2.2.2.2.2.2.1
  have hy5 : y5 < 2 := h.2.2.2.2.2.2.2.2.2.2.2.2.2.1
  have hy6 : y6 < 2 := h.2.2.2.2.2.2.2.2.2.2.2.2.2.2.1
  have hy7 : y7 < 2 := h.2.2.2.2.2.2.2.2.2.2.2.2.2.2.2.1
  have hy8 : y8 < 2 := h.2.2.2.2.2.2.2.2.2.2.2.2.2.2.2.2.1
  have hy9 : y9 < 2 := h.2.2.2.2.2.2.2.2.2.2.2.2.2.2.2.2.2.1
  have hy10 : y10 < 2 := h.2.2.2.2.2.2.2.2.2.2.2.2.2.2.2.2.2.2.1
  have hy11 : y11 < 2 := h.2.2.2.2.2.2.2.2.2.2.2.2.2.2.2.2.2.2.2
  clear h
  cases m <;>
    (simp only [inverse_move, apply_move_F, apply_move_R, apply_move_U, apply_move_B,
       apply_move_L, apply_move_D, apply_move_FPrime, apply_move_RPrime, apply_move_UPrime,
       apply_move_BPrime, apply_move_LPrime, apply_move_DPrime,
       Cube.mk.injEq, X.mk.injEq, Y.mk.injEq]
     refine ⟨funext fun cc => by cases cc <;> rfl, funext fun e => by cases e <;> rfl,
       by omega, by omega⟩)

/-- Witness for C3 at a concrete input: the solved state is well-formed, and
F followed by FPrime leaves it in the solved (identity) state. -/
theorem claimC3_witness :
    Cube.WF Cube.new ∧
    Cube.apply_move (Cube.apply_move Cube.new Move.F) (inverse_move Move.F) = Cube.new :=
  ⟨by decide, claimC3_move_then_inverse_id Move.F Cube.new (by decide)⟩

/-- Soundness of the candidate loop: when the recursive search is sound, any
sequence the loop reports solves the start state. -/
lemma dbsearchTry_sound (search : Cube → Option (List Move))
    (hs : ∀ s out, search s = some out → Cube.is_solved (applySeq s out) = true) :
    ∀ (start : Cube) (l : List Move) (out : List Move),
      dbsearchTry search start l = some out →
      Cube.is_solved (applySeq start out) = true := by
  intro start l
  induction l with
  | nil => intro out h; simp [dbsearchTry] at h
  | cons m rest ih =>
    intro out h
    rw [dbsearchTry] at h
    by_cases hsol : Cube.is_solved (Cube.apply_move start m) = true
    · rw [if_pos hsol] at h
      obtain rfl : [m] = out := Option.some.inj h
      simpa [applySeq] using hsol
    · rw [if_neg hsol] at h
      cases hrec : search (Cube.apply_move start m) with
      | none => rw [hrec] at h; exact ih out h
      | some ms =>
        rw [hrec] at h
        obtain rfl : m :: ms = out := Option.some.inj h
        simpa [applySeq] using hs _ _ hrec

/-- Soundness of the depth-bounded search at every depth. -/
lemma dbsearch_sound :
    ∀ (d : Nat) (start : Cube) (out : List Move),
      dbsearch d start = some out → Cube.is_solved (applySeq start out) = true := by
  intro d
  induction d with
  | zero => intro start out h; simp [dbsearch] at h
  | succ d ih =>
    intro start out h
    rw [dbsearch] at h
    exact dbsearchTry_sound (dbsearch d) ih start possible_moves out h

/-- Soundness of the iterative-deepening loop. -/
lemma searchFrom_sound :
    ∀ (rem depth : Nat) (c : Cube) (out : List Move),
      searchFrom c rem depth = some out → Cube.is_solved (applySeq c out) = true := by
  intro rem
  induction rem with
  | zero => intro depth c out h; simp [searchFrom] at h
  | succ rem ih =>
    intro depth c out h
    rw [searchFrom] at h
    cases hdb : dbsearch depth c with
    | none => rw [hdb] at h; exact ih (depth + 1) c out h
    | some s =>
      rw [hdb] at h
      obtain rfl : s = out := Option.some.inj h
      exact dbsearch_sound depth c s hdb

/-- C1: for every cube state and every depth bound, if find_solution returns
a non-empty move sequence, replaying that sequence in order against the
original input state yields a state satisfying is_solved; the solver never
reports a sequence that does not solve the input. -/
theorem claimC1_solver_sound (solver : IDSolver) (c : Cube)
    (h : IDSolver.find_solution solver c ≠ []) :
    Cube.is_solved (applySeq c (IDSolver.find_solution solver c)) = true := by
  rw [IDSolver.find_solution] at h ⊢
  by_cases hsol : Cube.is_solved c = true
  · rw [if_pos hsol] at h
    exact absurd rfl h
  · rw [if_neg hsol] at h ⊢
    cases hsf : searchFrom c solver.max_depth 1 with
    | none => rw [hsf] at h; exact absurd rfl h
    | some s => exact searchFrom_sound solver.max_depth 1 c s hsf

/-- Witness for C1 at a concrete input: on the cube scrambled by F, the
default solver returns a non-empty sequence, and replaying it solves it. -/
theorem claimC1_witness :
    IDSolver.find_solution IDSolver.new (Cube.apply_move Cube.new Move.F) ≠ [] ∧
    Cube.is_solved (applySeq (Cube.apply_move Cube.new Move.F)
      (IDSolver.find_solution IDSolver.new (Cube.apply_move Cube.new Move.F))) = true :=
  ⟨by decide, claimC1_solver_sound IDSolver.new (Cube.apply_move Cube.new Move.F) (by decide)⟩

/-- Every corner occurs in cornerList. -/
lemma mem_cornerList (c : Corner) : c ∈ cornerList := by
  cases c <;> decide

/-- Every edge occurs in edgeList. -/
lemma mem_edgeList (e : Edge) : e ∈ edgeList := by
  cases e <;> decide

/-- The 8-key comparison decides extensional equality of corner permutations. -/
lemma cornerPermEq_iff (p q : CornerPermutation) :
    cornerPermEq p q = true ↔ ∀ c, p c = q c := by
  constructor
  · intro h c
    have := List.all_eq_true.mp h c (mem_cornerList c)
    exact eq_of_beq this
  · intro h
    exact List.all_eq_true.mpr fun c _ => beq_iff_eq.mpr (h c)

/-- The 12-key comparison decides extensional equality of edge permutations. -/
lemma edgePermEq_iff (p q : EdgePermutation) :
    edgePermEq p q = true ↔ ∀ e, p e = q e := by
  constructor
  · intro h e
    have := List.all_eq_true.mp h e (mem_edgeList e)
    exact eq_of_beq this
  · intro h
    exact List.all_eq_true.mpr fun e _ => beq_iff_eq.mpr (h e)

/-- The default corner mapping is the identity mapping. -/
lemma cornerPermDefault_eq_id (c : Corner) : CornerPermutation.default c = c := by
  cases c <;> rfl

/-- The default edge mapping is the identity mapping. -/
lemma edgePermDefault_eq_id (e : Edge) : EdgePermutation.default e = e := by
  cases e <;> rfl

/-- C4: is_solved holds exactly when both permutation mappings are the
identity mapping and both orientation vectors are all-zero; consequently the
freshly created cube is solved, and one application of any of the 12 move
operators to it yields an unsolved state. -/
theorem claimC4_is_solved_characterization :
    (∀ c : Cube, Cube.is_solved c = true ↔
      ((∀ k, c.sigma k = k) ∧ (∀ e, c.tau e = e) ∧ c.x = X.default ∧ c.y = Y.default)) ∧
    Cube.is_solved Cube.new = true ∧
    ∀ m : Move, Cube.is_solved (Cube.apply_move Cube.new m) = false := by
  refine ⟨fun c => ?_, by decide, by intro m; cases m <;> decide⟩
  rw [Cube.is_solved]
  simp only [Bool.and_eq_true, cornerPermEq_iff, edgePermEq_iff, beq_iff_eq, and_assoc]
  constructor
  · rintro ⟨h1, h2, h3, h4⟩
    exact ⟨fun k => (h1 k).trans (cornerPermDefault_eq_id k),
      fun e => (h2 e).trans (edgePermDefault_eq_id e), h3, h4⟩
  · rintro ⟨h1, h2, h3, h4⟩
    exact ⟨fun k => (h1 k).trans (cornerPermDefault_eq_id k).symm,
      fun e => (h2 e).trans (edgePermDefault_eq_id e).symm, h3, h4⟩

/-- A corner permutation update factors as the old map composed with the
move's cubicle relabeling. -/
lemma cornerPermute_factor (p : CornerPermutation) (m : Move) :
    CornerPermutation.permute p m =
      fun c => p (CornerPermutation.permute id m c) := by
  cases m <;> funext c <;> cases c <;> rfl

/-- An edge permutation update factors likewise. -/
lemma edgePermute_factor (p : EdgePermutation) (m : Move) :
    EdgePermutation.permute p m =
      fun e => p (EdgePermutation.permute id m e) := by
  cases m <;> funext e <;> cases e <;> rfl

/-- The corner relabeling of every move is a bijection on the 8 corners. -/
lemma cornerPermute_id_bijective (m : Move) :
    Function.Bijective (CornerPermutation.permute id m) := by
  cases m <;> decide

/-- The edge relabeling of every move is a bijection on the 12 edges. -/
lemma edgePermute_id_bijective (m : Move) :
    Function.Bijective (EdgePermutation.permute id m) := by
  cases m <;> decide

/-- Applying one move preserves bijectivity of the corner mapping. -/
lemma cornerPermute_bijective (p : CornerPermutation) (m : Move)
    (hp : Function.Bijective p) :
    Function.Bijective (CornerPermutation.permute p m) := by
  rw [cornerPermute_factor]
  exact hp.comp (cornerPermute_id_bijective m)

/-- Applying one move preserves bijectivity of the edge mapping. -/
lemma edgePermute_bijective (p : EdgePermutation) (m : Move)
    (hp : Function.Bijective p) :
    Function.Bijective (EdgePermutation.permute p m) := by
  rw [edgePermute_factor]
  exact hp.comp (edgePermute_id_bijective m)

/-- Applying a move sequence preserves bijectivity of both mappings. -/
lemma applySeq_bijective :
    ∀ (ms : List Move) (c : Cube),
      Function.Bijective c.sigma → Function.Bijective c.tau →
      Function.Bijective (applySeq c ms).sigma ∧ Function.Bijective (applySeq c ms).tau := by
  intro ms
  induction ms with
  | nil => intro c hσ hτ; exact ⟨hσ, hτ⟩
  | cons m rest ih =>
    intro c hσ hτ
    exact ih (Cube.apply_move c m)
      (cornerPermute_bijective c.sigma m hσ) (edgePermute_bijective c.tau m hτ)

/-- C5: for every state reachable from the new cube by a finite sequence of
the 12 move operators, the corner cubicle-to-cubie mapping is a bijection on
the 8 corner identifiers and the edge mapping is a bijection on the 12 edge
identifiers: every piece identifier occurs exactly once as a value. -/
theorem claimC5_reachable_bijective (ms : List Move) :
    Function.Bijective (applySeq Cube.new ms).sigma ∧
    Function.Bijective (applySeq Cube.new ms).tau := by
  refine applySeq_bijective ms Cube.new ?_ ?_
  · have h : CornerPermutation.default = (id : Corner → Corner) :=
      funext cornerPermDefault_eq_id
    show Function.Bijective CornerPermutation.default
    rw [h]; exact Function.bijective_id
  · have h : EdgePermutation.default = (id : Edge → Edge) :=
      funext edgePermDefault_eq_id
    show Function.Bijective EdgePermutation.default
    rw [h]; exact Function.bijective_id

/-- C6: for every state and move, the permutation update realizes the move's
4-cycle from a snapshot of the pre-move mapping: after permute, the entry at
cycle position i+1 (mod 4) equals the pre-move entry at cycle position i, and
every position outside the 4-cycle keeps its pre-move entry, for the corner
and the edge permutation alike. -/
theorem claimC6_cycle_update (m : Move) (σ : CornerPermutation) (τ : EdgePermutation) :
    CornerPermutation.permute σ m (cornerCycle m).2.1 = σ (cornerCycle m).1 ∧
    CornerPermutation.permute σ m (cornerCycle m).2.2.1 = σ (cornerCycle m).2.1 ∧
    CornerPermutation.permute σ m (cornerCycle m).2.2.2 = σ (cornerCycle m).2.2.1 ∧
    CornerPermutation.permute σ m (cornerCycle m).1 = σ (cornerCycle m).2.2.2 ∧
    (∀ k : Corner, k ≠ (cornerCycle m).1 → k ≠ (cornerCycle m).2.1 →
      k ≠ (cornerCycle m).2.2.1 → k ≠ (cornerCycle m).2.2.2 →
      CornerPermutation.permute σ m k = σ k) ∧
    EdgePermutation.permute τ m (edgeCycle m).2.1 = τ (edgeCycle m).1 ∧
    EdgePermutation.permute τ m (edgeCycle m).2.2.1 = τ (edgeCycle m).2.1 ∧
    EdgePermutation.permute τ m (edgeCycle m).2.2.2 = τ (edgeCycle m).2.2.1 ∧
    EdgePermutation.permute τ m (edgeCycle m).1 = τ (edgeCycle m).2.2.2 ∧
    (∀ e : Edge, e ≠ (edgeCycle m).1 → e ≠ (edgeCycle m).2.1 →
      e ≠ (edgeCycle m).2.2.1 → e ≠ (edgeCycle m).2.2.2 →
      EdgePermutation.permute τ m e = τ e) := by
  cases m <;>
    refine ⟨rfl, rfl, rfl, rfl, fun k h0 h1 h2 h3 => ?_, rfl, rfl, rfl, rfl,
      fun e h0 h1 h2 h3 => ?_⟩ <;>
    first
      | (cases k <;> first | rfl | simp_all [cornerCycle])
      | (cases e <;> first | rfl | simp_all [edgeCycle])

/-- Witness for C6 at a concrete input: for the F move the off-cycle corner
DRB and off-cycle edge UB keep their entries in the default mappings. -/
theorem claimC6_witness :
    CornerPermutation.permute CornerPermutation.default Move.F Corner.DRB =
      CornerPermutation.default Corner.DRB ∧
    EdgePermutation.permute EdgePermutation.default Move.F Edge.UB =
      EdgePermutation.default Edge.UB :=
  ⟨(claimC6_cycle_update Move.F CornerPermutation.default EdgePermutation.default).2.2.2.2.1
      Corner.DRB (by decide) (by decide) (by decide) (by decide),
   (claimC6_cycle_update Move.F CornerPermutation.default EdgePermutation.default).2.2.2.2.2.2.2.2.2
      Edge.UB (by decide) (by decide) (by decide) (by decide)⟩

/-- C7: applying the single move F to a freshly created solved cube shows
face R as the literal row-major 9-entry grid U,R,R,U,R,R,U,R,R while face F
is all F stickers. -/
theorem claimC7_move_f_faces :
    Cube.get_face (Cube.apply_move Cube.new Move.F) Face.R =
      [Face.U, Face.R, Face.R, Face.U, Face.R, Face.R, Face.U, Face.R, Face.R] ∧
    Cube.get_face (Cube.apply_move Cube.new Move.F) Face.F =
      [Face.F, Face.F, Face.F, Face.F, Face.F, Face.F, Face.F, Face.F, Face.F] := by
  decide

/-- C8: find_solution on a cube that is already solved returns the empty
sequence (the depth-deepening loop is skipped by the is_solved guard); and a
failed search is a normal empty result, both in general (whenever the
deepening loop finds nothing) and concretely for a 2-move scramble searched
with maximum depth 1. -/
theorem claimC8_empty_results :
    (∀ (solver : IDSolver) (c : Cube), Cube.is_solved c = true →
      IDSolver.find_solution solver c = []) ∧
    (∀ (solver : IDSolver) (c : Cube), searchFrom c solver.max_depth 1 = none →
      IDSolver.find_solution solver c = []) ∧
    IDSolver.find_solution (IDSolver.with_max_depth 1)
      (Cube.apply_move (Cube.apply_move Cube.new Move.F) Move.R) = [] := by
  refine ⟨fun solver c h => ?_, fun solver c h => ?_, by decide⟩
  · rw [IDSolver.find_solution, if_pos h]
  · rw [IDSolver.find_solution]
    by_cases hsol : Cube.is_solved c = true
    · rw [if_pos hsol]
    · rw [if_neg hsol, h]

/-- Witness for C8 at a concrete input: the new cube is solved and the
solver returns the empty sequence on it. -/
theorem claimC8_witness :
    Cube.is_solved Cube.new = true ∧
    IDSolver.find_solution IDSolver.new Cube.new = [] :=
  ⟨by decide, claimC8_empty_results.1 IDSolver.new Cube.new (by decide)⟩

/-- C9: for every one of the 12 move operators m, the default solver (with
maximum depth 26) run on the cube obtained by applying exactly m to a fresh
solved cube returns a move sequence of length exactly 1. -/
theorem claimC9_one_move_scramble_length_one :
    ∀ m : Move,
      (IDSolver.find_solution IDSolver.new (Cube.apply_move Cube.new m)).length = 1 := by
  intro m
  cases m <;> decide

/-- foldl over apply_move agrees with the sequential application of moves. -/
lemma foldl_apply_move_eq_applySeq :
    ∀ (ms : List Move) (c : Cube), ms.foldl Cube.apply_move c = applySeq c ms := by
  intro ms
  induction ms with
  | nil => intro c; rfl
  | cons m rest ih => intro c; exact ih (Cube.apply_move c m)

/-- C10: Cube::solve mutates the cube in place: it returns exactly the
solver's move sequence, and the cube it leaves behind equals the pre-call
state with every returned move applied in order. -/
theorem claimC10_solve_applies_moves (c : Cube) (solver : Cube → List Move) :
    (Cube.solve c solver).2 = solver c ∧
    (Cube.solve c solver).1 = applySeq c (solver c) := by
  exact ⟨rfl, foldl_apply_move_eq_applySeq (solver c) c⟩
